import Mathlib

/-!
Verification of the FreedomNames name-directory node.

The Go sources are shallowly embedded: Go strings are byte lists
(`List Nat`) where byte-level content matters (record keys, UTF-8
validation) and Lean `String`s elsewhere; fallible Go functions return
`Except`/`Option`; the handler state (local cache, DHT contents) is
passed explicitly.
-/

namespace FreedomNames

/-! ### Record validator (FreedomNameValidator, validator.go)

`record.SplitKey` comes from the go-libp2p-record dependency: a key of
the form `/$namespace/$path` is split into `$namespace` and `$path`;
a key that is empty, does not start with a slash, or whose namespace
segment is empty fails with `ErrInvalidRecordType`. -/

inductive RecErr where
  | invalidRecordKeytype
  | wrongNamespace
  | keyNotUtf8
  deriving DecidableEq, Repr

/-- The byte of the character `/`. -/
def slashByte : Nat := 47

/-- Go strings.IndexByte: index of the first occurrence of `b`, `-1` if absent. -/
def indexByte (l : List Nat) (b : Nat) : Int :=
  match l.findIdx? (fun x => x == b) with
  | some i => (i : Int)
  | none => -1

/-- The function record.SplitKey from go-libp2p-record. -/
def splitKey (key : List Nat) : Except RecErr (List Nat × List Nat) :=
  if key.length = 0 ∨ key.head? ≠ some slashByte then
    .error .invalidRecordKeytype
  else
    let rest := key.tail
    let i := indexByte rest slashByte
    if i ≤ 0 then .error .invalidRecordKeytype
    else .ok (rest.take i.toNat, rest.drop (i.toNat + 1))

/-- A byte in the UTF-8 continuation range `0x80..0xBF`. -/
def isCont (b : Nat) : Bool := decide (0x80 ≤ b) && decide (b ≤ 0xBF)

/-- Go utf8.ValidString from the standard library: RFC 3629 validity
(rejecting overlong encodings, surrogates, and code points above
U+10FFFF) over the byte sequence. -/
def utf8Valid : List Nat → Bool
  | [] => true
  | b :: rest =>
    if b ≤ 0x7F then utf8Valid rest
    else if decide (0xC2 ≤ b) && decide (b ≤ 0xDF) then
      match rest with
      | b1 :: r => isCont b1 && utf8Valid r
      | [] => false
    else if decide (0xE0 ≤ b) && decide (b ≤ 0xEF) then
      match rest with
      | b1 :: b2 :: r =>
        (if b == 0xE0 then decide (0xA0 ≤ b1) && decide (b1 ≤ 0xBF)
         else if b == 0xED then decide (0x80 ≤ b1) && decide (b1 ≤ 0x9F)
         else isCont b1) && isCont b2 && utf8Valid r
      | _ => false
    else if decide (0xF0 ≤ b) && decide (b ≤ 0xF4) then
      match rest with
      | b1 :: b2 :: b3 :: r =>
        (if b == 0xF0 then decide (0x90 ≤ b1) && decide (b1 ≤ 0xBF)
         else if b == 0xF4 then decide (0x80 ≤ b1) && decide (b1 ≤ 0x8F)
         else isCont b1) && isCont b2 && isCont b3 && utf8Valid r
      | _ => false
    else false

/-- The reserved namespace tag `fn`, as bytes. -/
def fnNamespace : List Nat := [102, 110]

/-- Go FreedomNameValidator.Validate: split the key, require namespace
`fn`, require the local key to be valid UTF-8; `none` models Go's nil
error (acceptance), and the value is never inspected. -/
def Validate (key _value : List Nat) : Option RecErr :=
  match splitKey key with
  | .error e => some e
  | .ok (ns, localKey) =>
    if ns ≠ fnNamespace then some .wrongNamespace
    else if ¬ utf8Valid localKey then some .keyNotUtf8
    else none

/-- Go FreedomNameValidator.Select: always `(0, nil)`. -/
def Select (_k : List Nat) (_vals : List (List Nat)) : Nat × Option RecErr :=
  (0, none)

example : splitKey [47, 102, 110, 47, 97] = .ok ([102, 110], [97]) := by rfl

example : splitKey [47, 102, 110, 47] = .ok ([102, 110], []) := by rfl

example : Validate [47, 102, 110, 47, 97] [] = none := by decide

example : Validate [47, 120, 47, 97] [] = some .wrongNamespace := by decide

example : Validate [47, 102, 110, 47, 0xFF] [] = some .keyNotUtf8 := by decide

example : Validate [47, 102, 110, 47] [1, 2] = none := by decide

/-! ### Local cache (MemoryCache, cache.go)

`MemoryCache` wraps `lru.Cache[string, cacheRecord]` from
hashicorp/golang-lru with capacity 100.  The library's recency list is
embedded as an entry list ordered most-recently-used first: `Get` on a
hit moves the entry to the front, `Add` inserts (or refreshes) at the
front and, when the size exceeds the capacity, removes the last
(least-recently-used) entry. -/

/-- Remove the entry for `k`, if any (the lru library keys are unique). -/
def eraseKey (l : List (String × String)) (k : String) : List (String × String) :=
  l.eraseP (fun p => p.1 == k)

/-- Look up the value stored for `k`. -/
def lookupA (l : List (String × String)) (k : String) : Option String :=
  (l.find? (fun p => p.1 == k)).map (fun p => p.2)

/-- The capacity passed to `lru.New` in `NewMemoryCache`. -/
def lruCap : Nat := 100

structure MemoryCache where
  entries : List (String × String)
  deriving DecidableEq, Repr

/-- Go MemoryCache.Get: on a hit return `(value.A, true)` and refresh the
entry's recency; on a miss return `("", false)` with the cache unchanged. -/
def MemoryCache.Get (c : MemoryCache) (k : String) : (String × Bool) × MemoryCache :=
  match c.entries.find? (fun p => p.1 == k) with
  | none => (("", false), c)
  | some (_, v) => ((v, true), ⟨(k, v) :: eraseKey c.entries k⟩)

/-- Go MemoryCache.Add (the `Cache.Set` of the HTTP façade's interface):
`lru.Cache.Add` inserts at the front, replacing any entry with the same
key, and evicts the least-recently-used entry if the size now exceeds
the capacity. -/
def MemoryCache.Add (c : MemoryCache) (k v : String) : MemoryCache :=
  if ((k, v) :: eraseKey c.entries k).length > lruCap then
    ⟨((k, v) :: eraseKey c.entries k).dropLast⟩
  else
    ⟨(k, v) :: eraseKey c.entries k⟩

/-- Go MemoryCache.Expire: `lru.Cache.Remove`. -/
def MemoryCache.Expire (c : MemoryCache) (k : String) : MemoryCache :=
  ⟨eraseKey c.entries k⟩

/-- Go MemoryCache.Length: `lru.Cache.Len`. -/
def MemoryCache.Length (c : MemoryCache) : Nat :=
  c.entries.length

/-- Go MemoryCache.Clear: `lru.Cache.Purge`. -/
def MemoryCache.Clear (_c : MemoryCache) : MemoryCache :=
  ⟨[]⟩

/-- One client call against the cache. -/
inductive CacheOp where
  | add (k v : String)
  | get (k : String)
  | expire (k : String)
  | clear
  deriving DecidableEq, Repr

def applyOp (c : MemoryCache) : CacheOp → MemoryCache
  | .add k v => c.Add k v
  | .get k => (c.Get k).2
  | .expire k => c.Expire k
  | .clear => c.Clear

/-- Run a sequence of cache calls against the freshly created cache. -/
def runCache (ops : List CacheOp) : MemoryCache :=
  ops.foldl applyOp ⟨[]⟩

theorem length_eraseKey_le (l : List (String × String)) (k : String) :
    (eraseKey l k).length ≤ l.length := by
  unfold eraseKey
  exact List.length_eraseP_le l

theorem length_Add_le (c : MemoryCache) (k v : String) (h : c.Length ≤ lruCap) :
    (c.Add k v).Length ≤ lruCap := by
  have he := length_eraseKey_le c.entries k
  simp only [MemoryCache.Length] at h ⊢
  unfold MemoryCache.Add
  split
  · simp only [List.length_dropLast, List.length_cons]
    omega
  · next hle =>
    simp only [List.length_cons] at hle ⊢
    omega

theorem length_Get_le (c : MemoryCache) (k : String) (h : c.Length ≤ lruCap) :
    ((c.Get k).2).Length ≤ lruCap := by
  unfold MemoryCache.Get
  cases hf : c.entries.find? (fun p => p.1 == k) with
  | none => simpa using h
  | some p =>
    obtain ⟨a, v⟩ := p
    have hmem : (a, v) ∈ c.entries := List.mem_of_find?_eq_some hf
    have hp := List.find?_some hf
    have hlen : (List.eraseP (fun p : String × String => p.1 == k) c.entries).length + 1
        = c.entries.length :=
      List.length_eraseP_add_one hmem hp
    simp only [MemoryCache.Length, eraseKey, List.length_cons]
    simp only [MemoryCache.Length] at h
    omega

theorem length_applyOp_le (c : MemoryCache) (op : CacheOp) (h : c.Length ≤ lruCap) :
    (applyOp c op).Length ≤ lruCap := by
  cases op with
  | add k v => exact length_Add_le c k v h
  | get k => exact length_Get_le c k h
  | expire k =>
    simp only [applyOp, MemoryCache.Expire, MemoryCache.Length]
    exact le_trans (length_eraseKey_le c.entries k) h
  | clear => simp [applyOp, MemoryCache.Clear, MemoryCache.Length]

theorem length_foldl_le (ops : List CacheOp) (c : MemoryCache) (h : c.Length ≤ lruCap) :
    (ops.foldl applyOp c).Length ≤ lruCap := by
  induction ops generalizing c with
  | nil => simpa using h
  | cons op rest ih => exact ih (applyOp c op) (length_applyOp_le c op h)

theorem length_runCache_le (ops : List CacheOp) : (runCache ops).Length ≤ lruCap := by
  unfold runCache
  exact length_foldl_le ops ⟨[]⟩ (by simp [MemoryCache.Length])

theorem eraseKey_of_lookupA_none (l : List (String × String)) (k : String)
    (h : lookupA l k = none) : eraseKey l k = l := by
  unfold lookupA at h
  have hfind : l.find? (fun p => p.1 == k) = none := by
    cases hf : l.find? (fun p => p.1 == k) with
    | none => rfl
    | some p => rw [hf] at h; simp at h
  unfold eraseKey
  have : ∀ p ∈ l, ¬ ((fun p : String × String => p.1 == k) p = true) := by
    intro p hp
    exact List.find?_eq_none.mp hfind p hp
  exact List.eraseP_of_forall_not this

theorem Add_full_evicts_last (c : MemoryCache) (k v : String)
    (hfull : c.Length = lruCap) (hfresh : lookupA c.entries k = none) :
    c.Add k v = ⟨(k, v) :: c.entries.dropLast⟩ ∧ (c.Add k v).Length = lruCap := by
  have herase : eraseKey c.entries k = c.entries := eraseKey_of_lookupA_none c.entries k hfresh
  unfold MemoryCache.Length at hfull
  have hne : c.entries ≠ [] := by
    intro hnil
    rw [hnil] at hfull
    simp [lruCap] at hfull
  have hgt : ((k, v) :: c.entries).length > lruCap := by
    simp [hfull]
  constructor
  · simp only [MemoryCache.Add, herase]
    rw [if_pos hgt]
    rw [List.dropLast_cons_of_ne_nil hne]
  · simp only [MemoryCache.Length, MemoryCache.Add, herase]
    rw [if_pos hgt]
    simp only [List.length_dropLast, List.length_cons, hfull]
    omega

theorem Get_hit_moves_to_front (c : MemoryCache) (k v : String)
    (hhit : c.entries.find? (fun p => p.1 == k) = some (k, v)) :
    c.Get k = ((v, true), ⟨(k, v) :: eraseKey c.entries k⟩) := by
  unfold MemoryCache.Get
  rw [hhit]

/-- C5: over every sequence of cache operations the length never exceeds
the fixed capacity 100; inserting a fresh key into a full cache evicts
exactly the least-recently-accessed entry (the last entry of the
recency-ordered list) while keeping all others; and a `Get` hit moves
the accessed entry to the front of the recency order, so eviction is
driven by access recency, not insertion order. -/
theorem memoryCache_capacity_and_lru_eviction
    (ops : List CacheOp) (c : MemoryCache) (k v k' v' : String)
    (hfull : c.Length = lruCap) (hfresh : lookupA c.entries k = none)
    (hhit : c.entries.find? (fun p => p.1 == k') = some (k', v')) :
    (runCache ops).Length ≤ lruCap ∧
    lruCap = 100 ∧
    c.Add k v = ⟨(k, v) :: c.entries.dropLast⟩ ∧
    (c.Add k v).Length = lruCap ∧
    c.Get k' = ((v', true), ⟨(k', v') :: eraseKey c.entries k'⟩) := by
  obtain ⟨hev, hlen⟩ := Add_full_evicts_last c k v hfull hfresh
  exact ⟨length_runCache_le ops, rfl, hev, hlen,
    Get_hit_moves_to_front c k' v' hhit⟩

/-- A concrete full cache used to instantiate the capacity/eviction claim. -/
def demoEntries : List (String × String) :=
  (List.range lruCap).map (fun i => (Nat.repr i, "v"))

def demoCache : MemoryCache := ⟨demoEntries⟩

theorem memoryCache_capacity_and_lru_eviction_witness :
    demoCache.Length = lruCap ∧
    lookupA demoCache.entries "x" = none ∧
    demoCache.entries.find? (fun p => p.1 == "0") = some ("0", "v") ∧
    ((runCache []).Length ≤ lruCap ∧
     lruCap = 100 ∧
     demoCache.Add "x" "w" = ⟨("x", "w") :: demoCache.entries.dropLast⟩ ∧
     (demoCache.Add "x" "w").Length = lruCap ∧
     demoCache.Get "0" = (("v", true), ⟨("0", "v") :: eraseKey demoCache.entries "0"⟩)) := by
  have h1 : demoCache.Length = lruCap := by decide
  have h2 : lookupA demoCache.entries "x" = none := by decide
  have h3 : demoCache.entries.find? (fun p => p.1 == "0") = some ("0", "v") := by decide
  exact ⟨h1, h2, h3,
    memoryCache_capacity_and_lru_eviction [] demoCache "x" "w" "0" "v" h1 h2 h3⟩

/-! ### HTTP façade (AddHandler / LookupHandler, http.go)

The handlers are embedded after JSON decoding: `AddHandler` receives
the decoded `map[string]map[string]string` as a key → records list;
the DHT collaborator is an environment giving the outcome of each
`PutValue`/`GetValue` call, and the node-local state carries the cache
and the DHT contents written by successful puts. -/

structure DhtEnv where
  /-- Outcome of `FreedomDHT.PutValue dhtKey value`: `none` on success,
  `some msg` for the error surfaced to the handler. -/
  putResult : String → String → Option String
  /-- Outcome of `FreedomDHT.GetValue dhtKey`: the value bytes as a
  string (empty string when the store holds nothing), or an error. -/
  getResult : String → Except String String

structure SysState where
  cache : MemoryCache
  dht : List (String × String)
  deriving DecidableEq, Repr

/-- A successful `PutValue` stores the value under the DHT key. -/
def dhtSet (l : List (String × String)) (k v : String) : List (String × String) :=
  (k, v) :: eraseKey l k

inductive AddResp where
  | notInitialized
  | methodNotAllowed
  | badBody
  | putFailed (msg : String)
  | added
  deriving DecidableEq, Repr

inductive LookupResp where
  | notInitialized
  | missingKey
  | found (k v : String)
  | getFailed (msg : String)
  | notFound
  deriving DecidableEq, Repr

structure LookupOut where
  resp : LookupResp
  state : SysState
  /-- Whether the handler issued a `GetValue` round-trip to the store. -/
  storeQueried : Bool
  deriving DecidableEq, Repr

/-- The nested loop of `AddHandler`: the domain is the key, and each
record value of that key is processed in turn. -/
def flattenRecords : List (String × List String) → List (String × String)
  | [] => []
  | (key, records) :: rest =>
    (records.map (fun v => (key, v))) ++ flattenRecords rest

/-- The body of `AddHandler`'s loop: write the pair into the local cache
(`cache.Set`), then `PutValue` under `"/fn/" ++ key`; the first put
failure stops the loop, keeping the states already written. -/
def addPairs (env : DhtEnv) (st : SysState) :
    List (String × String) → Option String × SysState
  | [] => (none, st)
  | (key, value) :: rest =>
    let st1 : SysState := { st with cache := st.cache.Add key value }
    match env.putResult ("/fn/" ++ key) value with
    | some msg => (some msg, st1)
    | none => addPairs env { st1 with dht := dhtSet st1.dht ("/fn/" ++ key) value } rest

/-- Go AddHandler from http.go, after JSON decoding; `decodeOk = false`
models an unreadable or invalid request body. -/
def AddHandler (env : DhtEnv) (initialized isPost decodeOk : Bool)
    (data : List (String × List String)) (st : SysState) : AddResp × SysState :=
  if !initialized then (.notInitialized, st)
  else if !isPost then (.methodNotAllowed, st)
  else if !decodeOk then (.badBody, st)
  else
    match addPairs env st (flattenRecords data) with
    | (some msg, st') => (.putFailed ("Failed to store value in DHT: " ++ msg), st')
    | (none, st') => (.added, st')

/-- Go LookupHandler from http.go: check the local cache first; on a miss
fetch `"/fn/" ++ key` from the DHT, treat an empty value as not found
(without caching it), and cache a non-empty value before answering. -/
def LookupHandler (env : DhtEnv) (initialized : Bool) (key : String)
    (st : SysState) : LookupOut :=
  if !initialized then ⟨.notInitialized, st, false⟩
  else if key == "" then ⟨.missingKey, st, false⟩
  else
    match st.cache.Get key with
    | ((v, true), cache1) => ⟨.found key v, { st with cache := cache1 }, false⟩
    | ((_, false), _) =>
      match env.getResult ("/fn/" ++ key) with
      | .error msg =>
        ⟨.getFailed ("Failed to retrieve value from DHT: " ++ msg), st, true⟩
      | .ok value =>
        if value == "" then ⟨.notFound, st, true⟩
        else ⟨.found key value, { st with cache := st.cache.Add key value }, true⟩

theorem find?_Add_self (c : MemoryCache) (k v : String) :
    (c.Add k v).entries.find? (fun p => p.1 == k) = some (k, v) := by
  unfold MemoryCache.Add
  split
  · next hgt =>
    have hne : eraseKey c.entries k ≠ [] := by
      intro h0
      rw [h0] at hgt
      simp [lruCap] at hgt
    simp only
    rw [List.dropLast_cons_of_ne_nil hne]
    exact List.find?_cons_of_pos _ (by simp)
  · exact List.find?_cons_of_pos _ (by simp)

/-- C1: a successful `Publish(name, value)` (`AddHandler` with one pair
whose store write succeeds) followed by `Resolve(name)`
(`LookupHandler`) on the same node answers with the published value,
served from the local cache without a store round-trip. -/
theorem publish_then_resolve_served_from_cache
    (env : DhtEnv) (st : SysState) (name value : String)
    (hname : name ≠ "")
    (hput : env.putResult ("/fn/" ++ name) value = none) :
    (AddHandler env true true true [(name, [value])] st).1 = .added ∧
    (LookupHandler env true name
      (AddHandler env true true true [(name, [value])] st).2).resp
      = .found name value ∧
    (LookupHandler env true name
      (AddHandler env true true true [(name, [value])] st).2).storeQueried
      = false := by
  have hflat : flattenRecords [(name, [value])] = [(name, value)] := by
    simp [flattenRecords]
  have h1 : AddHandler env true true true [(name, [value])] st
      = (.added, { st with cache := st.cache.Add name value,
                           dht := dhtSet st.dht ("/fn/" ++ name) value }) := by
    simp [AddHandler, hflat, addPairs, hput]
  rw [h1]
  have hbeq : (name == "") = false := by
    simpa using hname
  have hget : (st.cache.Add name value).Get name
      = ((value, true),
         ⟨(name, value) :: eraseKey (st.cache.Add name value).entries name⟩) :=
    Get_hit_moves_to_front _ _ _ (find?_Add_self st.cache name value)
  refine ⟨rfl, ?_, ?_⟩ <;>
    simp [LookupHandler, hbeq, hget]

/-- C3: a `Resolve` on a name absent from the local cache, for which the
store read succeeds with an empty value, answers 404 Not-Found (not an
error) and leaves the state untouched, so the empty value is not cached
as a positive entry. -/
theorem resolve_empty_store_is_not_found
    (env : DhtEnv) (st : SysState) (key : String)
    (hkey : key ≠ "")
    (hmiss : st.cache.entries.find? (fun p => p.1 == key) = none)
    (hget : env.getResult ("/fn/" ++ key) = .ok "") :
    LookupHandler env true key st = ⟨.notFound, st, true⟩ := by
  have hbeq : (key == "") = false := by
    simpa using hkey
  simp [LookupHandler, hbeq, MemoryCache.Get, hmiss, hget]

/-- The successful handling of one pair of the batch: cache write plus
DHT write. -/
def applyPairOk (st : SysState) (p : String × String) : SysState :=
  { cache := st.cache.Add p.1 p.2,
    dht := dhtSet st.dht ("/fn/" ++ p.1) p.2 }

theorem addPairs_ok_segment (env : DhtEnv) (st : SysState)
    (done rest : List (String × String))
    (hdone : ∀ p ∈ done, env.putResult ("/fn/" ++ p.1) p.2 = none) :
    addPairs env st (done ++ rest) = addPairs env (done.foldl applyPairOk st) rest := by
  induction done generalizing st with
  | nil => simp
  | cons p done ih =>
    obtain ⟨key, value⟩ := p
    have hp : env.putResult ("/fn/" ++ key) value = none :=
      hdone (key, value) (List.mem_cons_self _ _)
    simp only [List.cons_append, addPairs, hp, List.foldl_cons]
    exact ih _ (fun q hq => hdone q (by simp [hq]))

theorem flattenRecords_singletons (pairs : List (String × String)) :
    flattenRecords (pairs.map (fun p => (p.1, [p.2]))) = pairs := by
  induction pairs with
  | nil => rfl
  | cons p rest ih =>
    obtain ⟨k, v⟩ := p
    simp [flattenRecords, ih]

/-- C4: in a batch publish, every pair is applied cache-first in order;
the first failing store write stops the batch, is surfaced as a 500
error, and the final state keeps both the failing name's already-written
cache entry and every earlier pair's cache and DHT writes. -/
theorem batch_publish_first_put_failure_aborts_without_rollback
    (env : DhtEnv) (st : SysState) (done rest : List (String × String))
    (k v msg : String)
    (hdone : ∀ p ∈ done, env.putResult ("/fn/" ++ p.1) p.2 = none)
    (hfail : env.putResult ("/fn/" ++ k) v = some msg) :
    AddHandler env true true true
        ((done ++ (k, v) :: rest).map (fun p => (p.1, [p.2]))) st
      = (.putFailed ("Failed to store value in DHT: " ++ msg),
         { done.foldl applyPairOk st with
             cache := (done.foldl applyPairOk st).cache.Add k v }) ∧
    ((done.foldl applyPairOk st).cache.Add k v).entries.find? (fun p => p.1 == k)
      = some (k, v) := by
  have hflat := flattenRecords_singletons (done ++ (k, v) :: rest)
  constructor
  · simp only [AddHandler, Bool.not_true, Bool.false_eq_true, if_false, hflat]
    rw [addPairs_ok_segment env st done ((k, v) :: rest) hdone]
    simp [addPairs, hfail, applyPairOk]
  · exact find?_Add_self _ k v

/-! ### Concrete scenario inputs for the handler claims -/

def emptyState : SysState := ⟨⟨[]⟩, []⟩

/-- A store collaborator whose puts fail exactly on the DHT key
built from the name bad, and whose reads always find nothing. -/
def demoEnv : DhtEnv :=
  ⟨fun dk _v => if dk == "/fn/bad" then some "boom" else none,
   fun _dk => .ok ""⟩

theorem publish_then_resolve_witness :
    ("alice" : String) ≠ "" ∧
    demoEnv.putResult ("/fn/" ++ "alice") "10.0.0.5" = none ∧
    ((AddHandler demoEnv true true true [("alice", ["10.0.0.5"])] emptyState).1
       = .added ∧
     (LookupHandler demoEnv true "alice"
       (AddHandler demoEnv true true true [("alice", ["10.0.0.5"])] emptyState).2).resp
       = .found "alice" "10.0.0.5" ∧
     (LookupHandler demoEnv true "alice"
       (AddHandler demoEnv true true true [("alice", ["10.0.0.5"])] emptyState).2).storeQueried
       = false) := by
  have h1 : ("alice" : String) ≠ "" := by decide
  have h2 : demoEnv.putResult ("/fn/" ++ "alice") "10.0.0.5" = none := by decide
  exact ⟨h1, h2,
    publish_then_resolve_served_from_cache demoEnv emptyState "alice" "10.0.0.5" h1 h2⟩

theorem resolve_empty_store_witness :
    ("unknown" : String) ≠ "" ∧
    emptyState.cache.entries.find? (fun p => p.1 == "unknown") = none ∧
    demoEnv.getResult ("/fn/" ++ "unknown") = .ok "" ∧
    LookupHandler demoEnv true "unknown" emptyState = ⟨.notFound, emptyState, true⟩ := by
  have h1 : ("unknown" : String) ≠ "" := by decide
  have h2 : emptyState.cache.entries.find? (fun p => p.1 == "unknown") = none := rfl
  have h3 : demoEnv.getResult ("/fn/" ++ "unknown") = .ok "" := rfl
  exact ⟨h1, h2, h3,
    resolve_empty_store_is_not_found demoEnv emptyState "unknown" h1 h2 h3⟩

theorem batch_publish_witness :
    (∀ p ∈ [(("a" : String), ("1" : String))],
        demoEnv.putResult ("/fn/" ++ p.1) p.2 = none) ∧
    demoEnv.putResult ("/fn/" ++ "bad") "2" = some "boom" ∧
    (AddHandler demoEnv true true true
        (([("a", "1")] ++ ("bad", "2") :: [("c", "3")]).map (fun p => (p.1, [p.2])))
        emptyState
      = (.putFailed ("Failed to store value in DHT: " ++ "boom"),
         { [("a", "1")].foldl applyPairOk emptyState with
             cache := ([("a", "1")].foldl applyPairOk emptyState).cache.Add "bad" "2" }) ∧
     (([("a", "1")].foldl applyPairOk emptyState).cache.Add "bad" "2").entries.find?
        (fun p => p.1 == "bad") = some ("bad", "2")) := by
  have h1 : ∀ p ∈ [(("a" : String), ("1" : String))],
      demoEnv.putResult ("/fn/" ++ p.1) p.2 = none := by decide
  have h2 : demoEnv.putResult ("/fn/" ++ "bad") "2" = some "boom" := by decide
  exact ⟨h1, h2,
    batch_publish_first_put_failure_aborts_without_rollback demoEnv emptyState
      [("a", "1")] [("c", "3")] "bad" "2" "boom" h1 h2⟩

/-! ### Validator claims -/

/-- C2 counterexample: the key consisting of namespace fn and an empty
local name splits successfully and is accepted by `Validate`, whereas
the claim demands rejection of empty local names with InvalidKey. -/
theorem validate_accepts_empty_local_name_counterexample :
    splitKey [47, 102, 110, 47] = .ok (fnNamespace, []) ∧
    Validate [47, 102, 110, 47] [] = none := by
  exact ⟨by rfl, by decide⟩

/-- C2 (amended): for every key that splits into a namespace and a local
name, `Validate` ignores the value entirely, rejects a namespace other
than fn with WrongNamespace, rejects a local name that is not valid
UTF-8 with InvalidKey, and accepts everything else — in particular the
empty local name, which is valid UTF-8, is accepted. -/
theorem validate_characterization (key v w ns loc : List Nat)
    (hsplit : splitKey key = .ok (ns, loc)) :
    Validate key v = Validate key w ∧
    (ns ≠ fnNamespace → Validate key v = some .wrongNamespace) ∧
    (ns = fnNamespace → utf8Valid loc = false → Validate key v = some .keyNotUtf8) ∧
    (ns = fnNamespace → utf8Valid loc = true → Validate key v = none) := by
  unfold Validate
  rw [hsplit]
  refine ⟨rfl, ?_, ?_, ?_⟩
  · intro hns
    simp [hns]
  · intro hns hutf
    simp [hns, hutf]
  · intro hns hutf
    simp [hns, hutf]

theorem validate_characterization_witness :
    splitKey [47, 102, 110, 47, 97] = .ok (fnNamespace, [97]) ∧
    ((Validate [47, 102, 110, 47, 97] [] = Validate [47, 102, 110, 47, 97] [5]) ∧
     (fnNamespace ≠ fnNamespace →
        Validate [47, 102, 110, 47, 97] [] = some .wrongNamespace) ∧
     (fnNamespace = fnNamespace → utf8Valid [97] = false →
        Validate [47, 102, 110, 47, 97] [] = some .keyNotUtf8) ∧
     (fnNamespace = fnNamespace → utf8Valid [97] = true →
        Validate [47, 102, 110, 47, 97] [] = none)) := by
  have h : splitKey [47, 102, 110, 47, 97] = .ok (fnNamespace, [97]) := by rfl
  exact ⟨h, validate_characterization [47, 102, 110, 47, 97] [] [5] fnNamespace [97] h⟩

/-- C8: for every key and every candidate list, `Select` returns index 0
with a nil error. -/
theorem select_always_first (k : List Nat) (vals : List (List Nat)) :
    Select k vals = (0, none) := rfl

/-- C9: on the empty candidate list `Select` still returns index 0 with
a nil error although index 0 is out of range for that list. -/
theorem select_empty_out_of_range (k : List Nat) :
    Select k [] = (0, none) ∧
    ¬ (Select k []).1 < (List.length ([] : List (List Nat))) := by
  exact ⟨rfl, by simp [Select]⟩

/-! ### Node lifecycle (FreedomNameNode, node.go)

The libp2p host and the kad-DHT are external collaborators; only the
structure the accessors read off them is embedded.  Go pointer nil-ness
becomes `Option`; closing a handle sets its `closed` flag but — exactly
as in the source — never clears the `kadDHT` or host references.
Accessor bodies that Go only reaches behind a non-nil check are
totalized with the empty value on the never-exercised nil-host branch. -/

structure P2pHost where
  closed : Bool := false
  peers : List String := []
  addrs : List String := []
  protocols : List String := []
  deriving DecidableEq, Repr

inductive DhtMode where
  | auto
  | client
  | server
  | autoServer
  deriving DecidableEq, Repr

structure IpfsDHT where
  host : Option P2pHost := none
  mode : DhtMode := .auto
  closed : Bool := false
  peerID : String := ""
  routingPeers : List String := []
  peerInfos : List String := []
  networkSize : Int := 0
  networkSizeErr : Option String := none
  deriving DecidableEq, Repr

structure FreedomNameNode where
  kadDHT : Option IpfsDHT := none
  deriving DecidableEq, Repr

/-- Go: `freedomName.kadDHT != nil && freedomName.kadDHT.Host() != nil`. -/
def FreedomNameNode.IsInitialized (n : FreedomNameNode) : Bool :=
  match n.kadDHT with
  | none => false
  | some d => d.host.isSome

def P2pHost.closeHost (h : P2pHost) : P2pHost :=
  { h with closed := true }

def IpfsDHT.closeDHT (d : IpfsDHT) : IpfsDHT :=
  { d with closed := true }

/-- Go FreedomNameNode.Shutdown: close the host, then close the DHT;
the `kadDHT` reference itself is never set to nil. -/
def FreedomNameNode.Shutdown (n : FreedomNameNode) : FreedomNameNode :=
  match n.kadDHT with
  | none => n
  | some d =>
    match d.host with
    | some h => ⟨some (IpfsDHT.closeDHT { d with host := some h.closeHost })⟩
    | none => ⟨some d.closeDHT⟩

def FreedomNameNode.GetMode (n : FreedomNameNode) : String :=
  match n.kadDHT with
  | some d =>
    match d.mode with
    | .auto => "Auto"
    | .client => "Client"
    | .server => "Server"
    | .autoServer => "AutoServer"
  | none => "Not initialized"

def FreedomNameNode.GetProtocols (n : FreedomNameNode) : List String :=
  match n.kadDHT with
  | some d => (d.host.map (fun h => h.protocols)).getD []
  | none => []

def FreedomNameNode.GetPeerInfos (n : FreedomNameNode) : List String :=
  match n.kadDHT with
  | some d => d.peerInfos
  | none => []

def FreedomNameNode.GetRoutingPeers (n : FreedomNameNode) : List String :=
  match n.kadDHT with
  | some d => d.routingPeers
  | none => []

def FreedomNameNode.GetNetworkPeers (n : FreedomNameNode) : List String :=
  match n.kadDHT with
  | some d => (d.host.map (fun h => h.peers)).getD []
  | none => []

def FreedomNameNode.GetPeerID (n : FreedomNameNode) : String :=
  match n.kadDHT with
  | some d => d.peerID
  | none => ""

def FreedomNameNode.GetListenAddresses (n : FreedomNameNode) : List String :=
  match n.kadDHT with
  | some d => (d.host.map (fun h => h.addrs)).getD []
  | none => []

/-- Go: `return 0, errors.New("DHT not initialized")` on the nil branch;
the pair models `(int32, error)`. -/
def FreedomNameNode.GetNetworkSize (n : FreedomNameNode) : Int × Option String :=
  match n.kadDHT with
  | some d => (d.networkSize, d.networkSizeErr)
  | none => (0, some "DHT not initialized")

/-- A node as built by `NewNode`: DHT and host both present. -/
def demoNode : FreedomNameNode := ⟨some { host := some {} }⟩

/-- A node whose DHT handle does not exist yet. -/
def uninitNode : FreedomNameNode := ⟨none⟩

/-- C6 counterexample: on an initialized node, `Shutdown` leaves the
handles in place, so `IsInitialized` still answers true afterwards —
the claim demands false after shutdown begins. -/
theorem shutdown_keeps_initialized_counterexample :
    demoNode.IsInitialized = true ∧ demoNode.Shutdown.IsInitialized = true := by
  decide

/-- C6 (amended): `IsInitialized` is false whenever the DHT handle is
absent — as at every point before `Start` completes — and `Shutdown`
closes the handles without clearing them, leaving `IsInitialized`
unchanged. -/
theorem isInitialized_false_before_start_and_unchanged_by_shutdown
    (n m : FreedomNameNode) (h : n.kadDHT = none) :
    n.IsInitialized = false ∧ m.Shutdown.IsInitialized = m.IsInitialized := by
  constructor
  · simp [FreedomNameNode.IsInitialized, h]
  · cases hm : m.kadDHT with
    | none => simp [FreedomNameNode.Shutdown, hm]
    | some d =>
      cases hh : d.host with
      | none =>
        simp [FreedomNameNode.Shutdown, FreedomNameNode.IsInitialized,
          IpfsDHT.closeDHT, hm, hh]
      | some hst =>
        simp [FreedomNameNode.Shutdown, FreedomNameNode.IsInitialized,
          IpfsDHT.closeDHT, hm, hh]

theorem isInitialized_amended_witness :
    uninitNode.kadDHT = none ∧
    (uninitNode.IsInitialized = false ∧
     demoNode.Shutdown.IsInitialized = demoNode.IsInitialized) := by
  exact ⟨rfl,
    isInitialized_false_before_start_and_unchanged_by_shutdown uninitNode demoNode rfl⟩

/-- C7 counterexample: the network-size accessor on an uninitialized
node does not merely return zero — it also reports an error, whereas
the claim says no accessor fails with an error while uninitialized. -/
theorem getNetworkSize_uninitialized_errors_counterexample :
    uninitNode.IsInitialized = false ∧
    uninitNode.GetNetworkSize = (0, some "DHT not initialized") := by
  constructor
  · rfl
  · rfl

/-- C7 (amended): on a node without a DHT handle every introspection
accessor returns its empty or zero value — `GetMode` answers the fixed
string Not-initialized — except `GetNetworkSize`, which returns zero
together with a DHT-not-initialized error. -/
theorem accessors_uninitialized_defaults (n : FreedomNameNode)
    (h : n.kadDHT = none) :
    n.GetMode = "Not initialized" ∧
    n.GetPeerID = "" ∧
    n.GetListenAddresses = [] ∧
    n.GetRoutingPeers = [] ∧
    n.GetNetworkPeers = [] ∧
    n.GetPeerInfos = [] ∧
    n.GetProtocols = [] ∧
    n.GetNetworkSize = (0, some "DHT not initialized") := by
  refine ⟨?_, ?_, ?_, ?_, ?_, ?_, ?_, ?_⟩ <;>
    simp [FreedomNameNode.GetMode, FreedomNameNode.GetPeerID,
      FreedomNameNode.GetListenAddresses, FreedomNameNode.GetRoutingPeers,
      FreedomNameNode.GetNetworkPeers, FreedomNameNode.GetPeerInfos,
      FreedomNameNode.GetProtocols, FreedomNameNode.GetNetworkSize, h]

theorem accessors_uninitialized_defaults_witness :
    uninitNode.kadDHT = none ∧
    (uninitNode.GetMode = "Not initialized" ∧
     uninitNode.GetPeerID = "" ∧
     uninitNode.GetListenAddresses = [] ∧
     uninitNode.GetRoutingPeers = [] ∧
     uninitNode.GetNetworkPeers = [] ∧
     uninitNode.GetPeerInfos = [] ∧
     uninitNode.GetProtocols = [] ∧
     uninitNode.GetNetworkSize = (0, some "DHT not initialized")) := by
  exact ⟨rfl, accessors_uninitialized_defaults uninitNode rfl⟩

/-! ### Identity manager (loadOrGenerateKey, node.go)

The file system and the crypto library are collaborators; a world value
fixes the outcome of each call the function makes.  The Bool paired
with the result records whether the key file exists after the call. -/

structure PrivKey where
  keyId : Nat
  deriving DecidableEq, Repr

structure KeyFS where
  /-- Outcome of `os.Stat(keyFile)`: whether the key file exists. -/
  fileExists : Bool
  /-- Outcome of `os.ReadFile(keyFile)`. -/
  readResult : Except String (List Nat)
  /-- Outcome of `crypto.UnmarshalPrivateKey` on given bytes. -/
  unmarshalResult : List Nat → Except String PrivKey
  /-- Outcome of `crypto.GenerateKeyPairWithReader(crypto.Ed25519, -1, rand.Reader)`. -/
  genResult : Except String PrivKey
  /-- Outcome of `crypto.MarshalPrivateKey` on the given key. -/
  marshalResult : PrivKey → Except String (List Nat)
  /-- Outcome of `os.WriteFile(keyFile, keyData, 0600)`. -/
  writeSucceeds : Bool

/-- Go `loadOrGenerateKey`: load and unmarshal when the file exists;
otherwise generate, marshal, and write the key file — the value
returned by `os.WriteFile` is discarded. -/
def loadOrGenerateKey (w : KeyFS) : Except String PrivKey × Bool :=
  if w.fileExists then
    match w.readResult with
    | .error e => (.error e, true)
    | .ok keyData => (w.unmarshalResult keyData, true)
  else
    match w.genResult with
    | .error e => (.error e, false)
    | .ok priv =>
      match w.marshalResult priv with
      | .error e => (.error e, false)
      | .ok _keyData => (.ok priv, w.writeSucceeds)

/-- C10: when the key file is absent, generation and marshalling
succeed, and persisting the fresh key to disk fails, the function still
returns the fresh key with a nil error and the identity is left
unpersisted. -/
theorem loadOrGenerateKey_discards_write_error (w : KeyFS) (k : PrivKey)
    (d : List Nat) (habsent : w.fileExists = false)
    (hgen : w.genResult = .ok k) (hmarshal : w.marshalResult k = .ok d)
    (hwfail : w.writeSucceeds = false) :
    loadOrGenerateKey w = (.ok k, false) := by
  simp [loadOrGenerateKey, habsent, hgen, hmarshal, hwfail]

/-- A world where the key file is missing and the disk write fails. -/
def demoKeyFS : KeyFS :=
  { fileExists := false,
    readResult := .error "file absent",
    unmarshalResult := fun _ => .error "unreachable",
    genResult := .ok ⟨7⟩,
    marshalResult := fun _ => .ok [1, 2, 3],
    writeSucceeds := false }

theorem loadOrGenerateKey_discards_write_error_witness :
    demoKeyFS.fileExists = false ∧
    demoKeyFS.genResult = .ok ⟨7⟩ ∧
    demoKeyFS.marshalResult ⟨7⟩ = .ok [1, 2, 3] ∧
    demoKeyFS.writeSucceeds = false ∧
    loadOrGenerateKey demoKeyFS = (.ok ⟨7⟩, false) := by
  exact ⟨rfl, rfl, rfl, rfl,
    loadOrGenerateKey_discards_write_error demoKeyFS ⟨7⟩ [1, 2, 3] rfl rfl rfl rfl⟩

end FreedomNames
